import Mathlib

/-!
Verification of the Quiz Attempt Engine of the SCHMGMT repository.

The engine lives in src/quiz/views.py (admission, quiz taking, review,
scoring orchestration) and src/quiz/forms.py (authoring validation).
The Django model layer (src/quiz/models.py: Quiz, Question subclasses,
Sitting, Progress) is not part of the provided sources; every definition
below that embeds a model method carries a doc comment beginning
`Modelled from the spec:` and is written from the specification text.
Everything else is translated directly from the Python in src/.

Timestamps are integers (seconds); `now` is always an explicit argument.
-/

namespace SchMgmt

/-- The quiz policy record, with the fields used by the quiz engine
(QuizAddForm field list in src/quiz/forms.py and the accesses in
src/quiz/views.py): draft flag, availability window, answer-reveal
configuration, exam-paper retention flag, attempt ceiling and time limit. -/
structure Quiz where
  draft : Bool
  randomOrder : Bool
  answersAtEnd : Bool
  examPaper : Bool
  singleAttempt : Bool
  maxAttempts : Nat
  passMark : Nat
  timeLimitMinutes : Option Nat
  availableFrom : Option Int
  availableUntil : Option Int
  allowReviewAfterSubmission : Bool
  showCorrectAnswersAfter : Option Int
  deriving DecidableEq, Repr

/-- Modelled from the spec: `Quiz.is_expired` lives in the missing
src/quiz/models.py. Spec 4.1: Closed when `available_until` is set and
`now > available_until`; unset means unbounded. -/
def Quiz.is_expired (q : Quiz) (now : Int) : Bool :=
  match q.availableUntil with
  | some t => decide (now > t)
  | none => false

/-- Availability status values produced by `_get_quiz_status` in
src/quiz/views.py (strings draft / upcoming / closed / active). -/
inductive QuizStatus where
  | draft
  | upcoming
  | closed
  | active
  deriving DecidableEq, Repr

/-- Translation of `_get_quiz_status` (src/quiz/views.py lines 133-141):
draft flag first, then `available_from` in the future, then expiry,
else active. A set `available_from` datetime is always truthy in Python,
hence the `Option` match. -/
def get_quiz_status (q : Quiz) (now : Int) : QuizStatus :=
  if q.draft then .draft
  else if (match q.availableFrom with | some t => decide (now < t) | none => false) then .upcoming
  else if q.is_expired now then .closed
  else .active

/-- Modelled from the spec: `Quiz.is_available` lives in the missing
src/quiz/models.py. Spec 4.1: only `Active` admits new attempts; the
views call `quiz.is_available()` exactly where the spec requires the
gate to report Active. -/
def Quiz.is_available (q : Quiz) (now : Int) : Bool :=
  get_quiz_status q now = QuizStatus.active

/-- Translation of the `show_answers` computation in `quiz_review`
(src/quiz/views.py lines 229-234). Python uses if / elif: when
`show_correct_answers_after` is set (truthy), only the timestamp
comparison decides; the review-after-submission clause is reached only
when the timestamp is unset. `sittingExists` is the truthiness of the
completed Sitting fetched just above. -/
def show_answers (q : Quiz) (now : Int) (sittingExists : Bool) : Bool :=
  match q.showCorrectAnswersAfter with
  | some t => decide (now ≥ t)
  | none => q.allowReviewAfterSubmission && sittingExists

/-- The disjunctive visibility rule as the spec words it (section 4.5):
`(answers_visible_after set AND now >= it) OR (review allowed after
submission AND a Complete Sitting exists)`. Stated only to be compared
against `show_answers`, the rule the code implements. -/
def spec_show_answers (q : Quiz) (now : Int) (sittingExists : Bool) : Bool :=
  (match q.showCorrectAnswersAfter with | some t => decide (now ≥ t) | none => false)
  || (q.allowReviewAfterSubmission && sittingExists)

/-- Translation of the deletion decision in `QuizTake.final_result_user`
(src/quiz/views.py lines 640-645): the Sitting is hard-deleted when the
quiz is not an exam paper, OR the acting user is a superuser, OR the
acting user is a lecturer. -/
def sitting_deleted_after_final (q : Quiz) (isSuperuser isLecturer : Bool) : Bool :=
  !q.examPaper || isSuperuser || isLecturer

/-- The deletion rule as the spec words it (section 3): deleted only if
the policy is not an exam-paper type AND the actor is not staff. Stated
only to be compared against `sitting_deleted_after_final`. -/
def spec_sitting_deleted (q : Quiz) (isStaff : Bool) : Bool :=
  !q.examPaper && !isStaff

/-- Per-variant correctness data of the four question kinds named in
src/quiz/views.py (MCQuestion, TrueFalseQuestion, FillInTheBlankQuestion,
EssayQuestion). -/
inductive QuestionKind where
  | mc (correctChoice : Nat)
  | trueFalse (expected : Bool)
  | fillBlank (expected : String) (caseSensitive : Bool)
  | essay
  deriving DecidableEq, Repr

/-- A question as the engine sees it: id, category id (Progress is keyed
by category), and the variant data. -/
structure Question where
  qid : Nat
  category : Nat
  kind : QuestionKind
  deriving DecidableEq, Repr

/-- A raw submitted answer, shaped by the per-variant forms in
src/quiz/forms.py: a choice id (radio select), a boolean, or free text. -/
inductive Guess where
  | choice (n : Nat)
  | boolean (b : Bool)
  | text (s : String)
  deriving DecidableEq, Repr

/-- Validation outcomes: the boolean correct / incorrect, plus the
third Ungraded value the spec gives to Essay questions. -/
inductive Outcome where
  | correct
  | incorrect
  | ungraded
  deriving DecidableEq, Repr

/-- Modelled from the spec: `Question.check_if_correct` lives in the
missing src/quiz/models.py. Spec 4.4: MultipleChoice compares the chosen
id to the single correct choice id; TrueFalse compares booleans;
FillInBlank trims whitespace and compares case-insensitively unless the
case-sensitive flag is set; Essay always returns Ungraded and is never
auto-scored. -/
def check_if_correct (question : Question) (g : Guess) : Outcome :=
  match question.kind, g with
  | .mc c, .choice n => if n = c then .correct else .incorrect
  | .trueFalse e, .boolean b => if b = e then .correct else .incorrect
  | .fillBlank e cs, .text s =>
      let sub := s.trim
      let exp := e.trim
      if cs then (if sub = exp then .correct else .incorrect)
      else (if sub.toLower = exp.toLower then .correct else .incorrect)
  | .essay, _ => .ungraded
  | _, _ => .incorrect

/-- The attempt record (Sitting): remaining question queue, answered
map, incorrect set, running score, start timestamp and completion flag
(spec section 3; the model class itself is in the missing
src/quiz/models.py). -/
structure Sitting where
  questionQueue : List Nat
  answeredMap : List (Nat × Guess)
  incorrect : List Nat
  currentScore : Nat
  start : Int
  complete : Bool
  deriving DecidableEq, Repr

/-- Modelled from the spec: `Sitting.add_to_score` (missing models.py)
increments the running correct-count. -/
def Sitting.add_to_score (s : Sitting) (n : Nat) : Sitting :=
  { s with currentScore := s.currentScore + n }

/-- Modelled from the spec: `Sitting.add_incorrect_question` (missing
models.py) adds the question id to the set of incorrectly answered
question ids. -/
def Sitting.add_incorrect_question (s : Sitting) (qid : Nat) : Sitting :=
  { s with incorrect := if qid ∈ s.incorrect then s.incorrect else s.incorrect ++ [qid] }

/-- Modelled from the spec: `Sitting.add_user_answer` (missing models.py)
records the raw answer in the answered map. -/
def Sitting.add_user_answer (s : Sitting) (qid : Nat) (g : Guess) : Sitting :=
  { s with answeredMap := s.answeredMap ++ [(qid, g)] }

/-- Modelled from the spec: `Sitting.remove_first_question` (missing
models.py) pops the head of the remaining-question queue. -/
def Sitting.remove_first_question (s : Sitting) : Sitting :=
  { s with questionQueue := s.questionQueue.tail }

/-- Modelled from the spec: `Sitting.get_first_question` (missing
models.py) is an idempotent peek at the head of the remaining queue. -/
def Sitting.get_first_question (s : Sitting) : Option Nat :=
  s.questionQueue.head?

/-- Modelled from the spec: the progress display the view puts in the
template context (`sitting.progress()`, missing models.py): how many
questions are answered out of the snapshot total. Carries no
correctness information. -/
def Sitting.progressPair (s : Sitting) : Nat × Nat :=
  (s.answeredMap.length, s.answeredMap.length + s.questionQueue.length)

/-- The per-learner Progress aggregate: list of
(category id, cumulative correct, cumulative total) (spec section 3). -/
structure ProgressRec where
  scores : List (Nat × Nat × Nat)
  deriving DecidableEq, Repr

/-- Modelled from the spec: `Progress.update_score` (missing models.py)
adds (correct, total) to the counters of the question category,
appending a fresh entry for a first-seen category. -/
def updateScores : List (Nat × Nat × Nat) → Nat → Nat → Nat → List (Nat × Nat × Nat)
  | [], cat, c, t => [(cat, c, t)]
  | e :: rest, cat, c, t =>
      if e.1 = cat then (cat, e.2.1 + c, e.2.2 + t) :: rest
      else e :: updateScores rest cat c t

/-- Modelled from the spec: `Progress.update_score` on the record. -/
def ProgressRec.update_score (p : ProgressRec) (cat c t : Nat) : ProgressRec :=
  ⟨updateScores p.scores cat c t⟩

/-- Cumulative correct counter of one category (0 when unseen). -/
def ProgressRec.correctFor (p : ProgressRec) (cat : Nat) : Nat :=
  ((p.scores.filter (fun e => e.1 == cat)).map (fun e => e.2.1)).sum

/-- Cumulative total counter of one category (0 when unseen). -/
def ProgressRec.totalFor (p : ProgressRec) (cat : Nat) : Nat :=
  ((p.scores.filter (fun e => e.1 == cat)).map (fun e => e.2.2)).sum

/-- The state `QuizTake.form_valid_user` reads and writes: the Sitting
and the per-learner Progress record. -/
structure TakeState where
  sitting : Sitting
  progress : ProgressRec
  deriving DecidableEq, Repr

/-- The per-question feedback dict built for the template when the quiz
does not withhold answers to the end (src/quiz/views.py lines 587-596). -/
structure PreviousInfo where
  prevAnswer : Guess
  prevOutcome : Bool
  prevQuestion : Nat
  deriving DecidableEq, Repr

/-- Translation of `QuizTake.form_valid_user` (src/quiz/views.py lines
575-602): validate the guess; on correct add 1 to the Sitting score and
update Progress with (1, 1), else add to the incorrect set and update
Progress with (0, 1); build the `previous` feedback only when
`answers_at_end` is off; record the answer and pop the queue. The view
treats the validation outcome as a boolean condition, so only a true
(`correct`) outcome takes the scoring branch. Returns the new state and
the feedback payload. -/
def form_valid_user (q : Quiz) (st : TakeState) (question : Question) (g : Guess) :
    TakeState × Option PreviousInfo :=
  let isCorrect := check_if_correct question g = Outcome.correct
  let sitting1 := if isCorrect then st.sitting.add_to_score 1
                  else st.sitting.add_incorrect_question question.qid
  let progress1 := st.progress.update_score question.category (if isCorrect then 1 else 0) 1
  let previous := if q.answersAtEnd then none
                  else some ⟨g, isCorrect, question.qid⟩
  let sitting2 := (sitting1.add_user_answer question.qid g).remove_first_question
  (⟨sitting2, progress1⟩, previous)

/-- Everything the learner observes in the mid-attempt response after a
submission (src/quiz/views.py `form_valid` / `get_context_data`): the
`previous` feedback payload, the next question served, and the progress
display. -/
def midAttemptView (st : TakeState) (previous : Option PreviousInfo) :
    Option PreviousInfo × Option Nat × (Nat × Nat) :=
  (previous, st.sitting.get_first_question, st.sitting.progressPair)

/-- Modelled from the spec: `Sitting.get_time_remaining` (missing
models.py). Spec 4.3: `policy.time_limit - (now - start_timestamp)`,
floored at zero, recomputed from the clock on every call; `none` when
the policy has no time limit. The limit is stored in minutes. -/
def Sitting.get_time_remaining (s : Sitting) (q : Quiz) (now : Int) : Option Int :=
  q.timeLimitMinutes.map (fun m => max 0 (s.start + (m : Int) * 60 - now))

/-- Modelled from the spec: `Sitting.is_time_expired` (missing
models.py). Spec 4.3: the time limit is set and the remaining time is
zero. -/
def Sitting.is_time_expired (s : Sitting) (q : Quiz) (now : Int) : Bool :=
  match s.get_time_remaining q now with
  | some r => decide (r = 0)
  | none => false

/-- Modelled from the spec: `Sitting.mark_quiz_complete` (missing
models.py) sets the completion flag, leaving the recorded answers,
score and incorrect set untouched (the completion timestamp is not
modelled). -/
def Sitting.mark_quiz_complete (s : Sitting) : Sitting :=
  { s with complete := true }

/-- The acting user, with the role flags the quiz views read
(`is_student`, `is_superuser`, `is_lecturer`). -/
structure UserCtx where
  isStudent : Bool
  isSuperuser : Bool
  isLecturer : Bool
  deriving DecidableEq, Repr

/-- A fresh attempt: the snapshotted question queue, empty answer map,
empty incorrect set, zero score, started now (spec 4.2 step 5). -/
def newSitting (queue : List Nat) (now : Int) : Sitting :=
  ⟨queue, [], [], 0, now, false⟩

/-- Modelled from the spec: `Sitting.objects.user_sitting` (missing
models.py), the resume-or-create admission decision of spec 4.2 steps
3-5: reject (None) when the completed-attempt count has reached the
attempt ceiling, otherwise resume the unfinished Sitting when one
exists, otherwise create a fresh one. -/
def user_sitting (q : Quiz) (completedCount : Nat) (existing : Option Sitting)
    (now : Int) (queue : List Nat) : Option Sitting :=
  if q.maxAttempts ≤ completedCount then none
  else
    match existing with
    | some s => some s
    | none => some (newSitting queue now)

/-- The possible results of `QuizTake.dispatch`: the not-available
redirects (draft block, expired-to-review, upcoming, closed), the
no-questions redirect, the attempts-exhausted redirect, the forced
completion on time expiry, and serving the next question. -/
inductive DispatchResult where
  | redirectDraft
  | redirectReview
  | redirectUpcoming
  | redirectUnavailable
  | redirectEmpty
  | redirectAttempts
  | timeExpired (s : Sitting)
  | serve (s : Sitting) (firstQ : Option Nat)
  deriving DecidableEq, Repr

/-- Whether a dispatch result is one of the not-available redirects
(the NotAvailable error family: Draft, Closed-to-review, Upcoming, or
the generic no-longer-available message). -/
def DispatchResult.isNotAvailable : DispatchResult → Bool
  | .redirectDraft => true
  | .redirectReview => true
  | .redirectUpcoming => true
  | .redirectUnavailable => true
  | _ => false

/-- Translation of `QuizTake.dispatch` (src/quiz/views.py lines
506-553): block students from draft quizzes; for students on an
unavailable quiz redirect to review when expired, else report upcoming
or no-longer-available (non-students fall through this block); then
reject quizzes with no questions; then resolve the Sitting through
`user_sitting`, rejecting when it returns none; then force completion
when the server-side time check says the limit has elapsed; otherwise
serve the first remaining question. `completedCount` is the number of
this learner-and-quiz completed Sittings and `existing` the unfinished
one, the durable state the view queries. -/
def dispatch (q : Quiz) (u : UserCtx) (qids : List Nat) (completedCount : Nat)
    (existing : Option Sitting) (now : Int) : DispatchResult :=
  if u.isStudent && q.draft then .redirectDraft
  else if !(q.is_available now) && u.isStudent then
    (if q.is_expired now then .redirectReview
     else if (match q.availableFrom with | some t => decide (now < t) | none => false) then
       .redirectUpcoming
     else .redirectUnavailable)
  else if qids.isEmpty then .redirectEmpty
  else
    match user_sitting q completedCount existing now qids with
    | none => .redirectAttempts
    | some s =>
        if s.is_time_expired q now then .timeExpired s.mark_quiz_complete
        else .serve s s.get_first_question

/-- The durable per-learner history for one quiz and course: how many
completed Sittings exist, and the unfinished one when there is one. -/
structure LearnerHistory where
  completed : Nat
  current : Option Sitting
  deriving DecidableEq, Repr

/-- The operations that change a learner history for a fixed policy:
an admission resolved through `user_sitting` (resuming or creating an
unfinished Sitting), and finalization of the unfinished Sitting, which
makes it a completed one. Rejected admissions change nothing. -/
inductive QuizStep (q : Quiz) : LearnerHistory → LearnerHistory → Prop where
  | startAttempt (h : LearnerHistory) (now : Int) (queue : List Nat) (s : Sitting)
      (hs : user_sitting q h.completed h.current now queue = some s) :
      QuizStep q h ⟨h.completed, some s⟩
  | finalizeAttempt (h : LearnerHistory) (s : Sitting) (hcur : h.current = some s) :
      QuizStep q h ⟨h.completed + 1, none⟩

/-- Reachability through learner-history steps. -/
inductive QuizReach (q : Quiz) : LearnerHistory → LearnerHistory → Prop where
  | refl (h : LearnerHistory) : QuizReach q h h
  | tail {a b c : LearnerHistory} :
      QuizReach q a b → QuizStep q b c → QuizReach q a c

/-- One choice row of the MCQuestion authoring formset, with the
cleaned-data fields `MCQuestionFormSet.clean` reads: the DELETE flag
(`cleaned_data.get("DELETE", True)`: a missing key counts as deleted),
whether the row has a `choice_text` key, and the `correct` flag
(`cleaned_data.get("correct", False)`). -/
structure ChoiceForm where
  deleteFlag : Option Bool
  hasChoiceText : Bool
  correct : Option Bool
  deriving DecidableEq, Repr

/-- The non-deleted rows of the formset (src/quiz/forms.py lines
167-170). -/
def validForms (forms : List ChoiceForm) : List ChoiceForm :=
  forms.filter (fun f => !(f.deleteFlag.getD true))

/-- Translation of `MCQuestionFormSet.clean` (src/quiz/forms.py lines
158-191): every non-deleted row must carry a choice text; at least two
non-deleted rows must remain; at least one and at most one of them must
be marked correct. The first failing check raises its ValidationError. -/
def formset_clean (forms : List ChoiceForm) : Except String Unit :=
  if !((validForms forms).all (fun f => f.hasChoiceText)) then
    .error "You must add a valid choice name."
  else if (validForms forms).length < 2 then
    .error "You must provide at least two choices."
  else if !(((validForms forms).map (fun f => f.correct.getD false)).any (fun b => b)) then
    .error "One choice must be marked as correct."
  else if 1 < ((validForms forms).map (fun f => f.correct.getD false)).count true then
    .error "Only one choice must be marked as correct."
  else .ok ()

end SchMgmt

namespace SchMgmt

/-- Claim C9: the availability-status function is pure and deterministic
in (policy, now) and evaluates its cases in fixed precedence: draft flag
yields Draft; else a set available_from with now earlier yields Upcoming;
else a set available_until with now later yields Closed; else Active. -/
theorem C9_gate_precedence (q : Quiz) (now : Int) :
    (q.draft = true → get_quiz_status q now = QuizStatus.draft) ∧
    (q.draft = false → ∀ t, q.availableFrom = some t → now < t →
      get_quiz_status q now = QuizStatus.upcoming) ∧
    (q.draft = false →
      (∀ t, q.availableFrom = some t → t ≤ now) →
      ∀ u, q.availableUntil = some u → u < now →
      get_quiz_status q now = QuizStatus.closed) ∧
    (q.draft = false →
      (∀ t, q.availableFrom = some t → t ≤ now) →
      (∀ u, q.availableUntil = some u → now ≤ u) →
      get_quiz_status q now = QuizStatus.active) := by
  refine ⟨?_, ?_, ?_, ?_⟩
  · intro hd
    simp [get_quiz_status, hd]
  · intro hd t hfrom hlt
    simp [get_quiz_status, hd, hfrom, hlt]
  · intro hd hfrom u huntil hgt
    have hfrom2 : (match q.availableFrom with
        | some t => decide (now < t) | none => false) = false := by
      cases hf : q.availableFrom with
      | none => rfl
      | some t =>
        have := hfrom t hf
        simp [not_lt.mpr this]
    simp [get_quiz_status, hd, hfrom2, Quiz.is_expired, huntil, hgt]
  · intro hd hfrom huntil
    have hfrom2 : (match q.availableFrom with
        | some t => decide (now < t) | none => false) = false := by
      cases hf : q.availableFrom with
      | none => rfl
      | some t =>
        have := hfrom t hf
        simp [not_lt.mpr this]
    have hexp : q.is_expired now = false := by
      unfold Quiz.is_expired
      cases hu : q.availableUntil with
      | none => rfl
      | some u =>
        have := huntil u hu
        simp [not_lt.mpr this]
    simp [get_quiz_status, hd, hfrom2, hexp]

/-- Witness for C9: evaluates the gate on concrete policies covering each
branch of the precedence. -/
theorem C9_gate_precedence_witness :
    get_quiz_status ⟨true, false, false, false, false, 1, 50, none, none, none, false, none⟩ 0
        = QuizStatus.draft ∧
    get_quiz_status ⟨false, false, false, false, false, 1, 50, none, some 5, none, false, none⟩ 0
        = QuizStatus.upcoming ∧
    get_quiz_status ⟨false, false, false, false, false, 1, 50, none, some 5, some 7, false, none⟩ 9
        = QuizStatus.closed ∧
    get_quiz_status ⟨false, false, false, false, false, 1, 50, none, some 5, some 7, false, none⟩ 6
        = QuizStatus.active := by
  refine ⟨?_, ?_, ?_, ?_⟩
  · exact (C9_gate_precedence _ 0).1 rfl
  · exact (C9_gate_precedence _ 0).2.1 rfl 5 rfl (by decide)
  · exact (C9_gate_precedence _ 9).2.2.1 rfl
      (by intro t ht; cases ht; decide) 7 rfl (by decide)
  · exact (C9_gate_precedence _ 6).2.2.2 rfl
      (by intro t ht; cases ht; decide) (by intro u hu; cases hu; decide)

/-- Claim C2, counterexample: with answers-visible-after set to the
future time 10, review-after-submission allowed and a Complete Sitting
present at now = 5, the spec disjunction says answers are shown, but the
code (if / elif) hides them: the timestamp clause, once set, suppresses
the review-after-submission clause. -/
theorem C2_counterexample :
    spec_show_answers
      ⟨false, false, false, false, false, 1, 50, none, none, none, true, some 10⟩ 5 true = true ∧
    show_answers
      ⟨false, false, false, false, false, 1, 50, none, none, none, true, some 10⟩ 5 true = false := by
  constructor <;> rfl

/-- Claim C2 amended: answers are shown iff either the answers-visible-
after timestamp is set and now is at or past it, or the timestamp is
unset, review after submission is allowed, and a Complete Sitting exists.
A set-but-future timestamp hides answers even when review after
submission is allowed (the timestamp clause has strict precedence). -/
theorem C2_amended (q : Quiz) (now : Int) (sittingExists : Bool) :
    show_answers q now sittingExists = true ↔
      ((∃ t, q.showCorrectAnswersAfter = some t ∧ t ≤ now) ∨
       (q.showCorrectAnswersAfter = none ∧ q.allowReviewAfterSubmission = true ∧
        sittingExists = true)) := by
  unfold show_answers
  cases hs : q.showCorrectAnswersAfter with
  | none => simp [Bool.and_eq_true]
  | some t =>
    simp only [decide_eq_true_eq]
    constructor
    · intro h
      exact Or.inl ⟨t, rfl, h⟩
    · rintro (⟨u, hu, hle⟩ | ⟨hnone, _, _⟩)
      · cases hu
        exact hle
      · exact absurd hnone (by simp)

/-- Witness for the amended C2: a set timestamp already reached shows
answers on a concrete policy. -/
theorem C2_amended_witness :
    show_answers
      ⟨false, false, false, false, false, 1, 50, none, none, none, true, some 4⟩ 5 false = true :=
  (C2_amended _ 5 false).mpr (Or.inl ⟨4, rfl, by decide⟩)

/-- Claim C1, counterexample: for an exam-paper policy with a superuser
actor the code deletes the Sitting, while the claim says that an
exam-paper policy (or a staff actor) always retains it. -/
theorem C1_counterexample :
    sitting_deleted_after_final
      ⟨false, false, false, true, false, 1, 50, none, none, none, false, none⟩ true false = true ∧
    spec_sitting_deleted
      ⟨false, false, false, true, false, 1, 50, none, none, none, false, none⟩ true = false := by
  constructor <;> rfl

/-- Claim C1 amended: after finalization the Sitting is hard-deleted iff
the policy is not an exam-paper type OR the actor is a superuser OR the
actor is a lecturer; it is retained exactly when the policy is an exam
paper and the actor is neither superuser nor lecturer. -/
theorem C1_amended (q : Quiz) (isSuperuser isLecturer : Bool) :
    sitting_deleted_after_final q isSuperuser isLecturer = true ↔
      (q.examPaper = false ∨ isSuperuser = true ∨ isLecturer = true) := by
  unfold sitting_deleted_after_final
  cases q.examPaper <;> cases isSuperuser <;> cases isLecturer <;> simp

/-- Updating a category adds the increment to that total counter. -/
theorem updateScores_totalFor (l : List (Nat × Nat × Nat)) (cat c t : Nat) :
    ProgressRec.totalFor ⟨updateScores l cat c t⟩ cat
      = ProgressRec.totalFor ⟨l⟩ cat + t := by
  induction l with
  | nil => simp [updateScores, ProgressRec.totalFor]
  | cons e rest ih =>
    by_cases h : e.1 = cat
    · simp only [updateScores, if_pos h, ProgressRec.totalFor]
      simp [h]
      omega
    · simp only [updateScores, if_neg h, ProgressRec.totalFor] at *
      simp [h, List.filter_cons] at *
      omega

/-- Updating a category adds the increment to that correct counter. -/
theorem updateScores_correctFor (l : List (Nat × Nat × Nat)) (cat c t : Nat) :
    ProgressRec.correctFor ⟨updateScores l cat c t⟩ cat
      = ProgressRec.correctFor ⟨l⟩ cat + c := by
  induction l with
  | nil => simp [updateScores, ProgressRec.correctFor]
  | cons e rest ih =>
    by_cases h : e.1 = cat
    · simp only [updateScores, if_pos h, ProgressRec.correctFor]
      simp [h]
      omega
    · simp only [updateScores, if_neg h, ProgressRec.correctFor] at *
      simp [h, List.filter_cons] at *
      omega

/-- Updating a category leaves every other total counter unchanged. -/
theorem updateScores_totalFor_ne (l : List (Nat × Nat × Nat)) (cat c t d : Nat)
    (hne : d ≠ cat) :
    ProgressRec.totalFor ⟨updateScores l cat c t⟩ d = ProgressRec.totalFor ⟨l⟩ d := by
  induction l with
  | nil => simp [updateScores, ProgressRec.totalFor, Ne.symm hne]
  | cons e rest ih =>
    by_cases h : e.1 = cat
    · simp only [updateScores, if_pos h, ProgressRec.totalFor]
      have : (cat == d) = false := by simpa using (Ne.symm hne)
      have h2 : (e.1 == d) = false := by
        subst h
        simpa using (Ne.symm hne)
      simp [this, h2]
    · simp only [updateScores, if_neg h, ProgressRec.totalFor] at *
      simp [List.filter_cons] at *
      by_cases h3 : e.1 = d <;> simp [h3] at * <;> omega

/-- Updating a category leaves every other correct counter unchanged. -/
theorem updateScores_correctFor_ne (l : List (Nat × Nat × Nat)) (cat c t d : Nat)
    (hne : d ≠ cat) :
    ProgressRec.correctFor ⟨updateScores l cat c t⟩ d = ProgressRec.correctFor ⟨l⟩ d := by
  induction l with
  | nil => simp [updateScores, ProgressRec.correctFor, Ne.symm hne]
  | cons e rest ih =>
    by_cases h : e.1 = cat
    · simp only [updateScores, if_pos h, ProgressRec.correctFor]
      have : (cat == d) = false := by simpa using (Ne.symm hne)
      have h2 : (e.1 == d) = false := by
        subst h
        simpa using (Ne.symm hne)
      simp [this, h2]
    · simp only [updateScores, if_neg h, ProgressRec.correctFor] at *
      simp [List.filter_cons] at *
      by_cases h3 : e.1 = d <;> simp [h3] at * <;> omega

/-- Claim C3, counterexample: a single submit_answer call on an empty
Progress record produces a changed Progress record (the code updates
Progress on every submission, inside `form_valid_user`), refuting the
claim that submissions leave Progress unchanged. -/
theorem C3_counterexample :
    ((form_valid_user
        ⟨false, false, false, false, false, 1, 50, none, none, none, false, none⟩
        ⟨⟨[7], [], [], 0, 0, false⟩, ⟨[]⟩⟩
        ⟨7, 3, .mc 1⟩ (.choice 1)).1).progress ≠ (⟨[]⟩ : ProgressRec) := by
  decide

/-- Claim C3 amended: every submit_answer mutates the per-learner
Progress aggregate — the submitted question category total counter is
incremented by exactly 1 and its correct counter by 1 exactly when the
answer was correct, all other categories unchanged; Progress is updated
per submission, not only by finalize. -/
theorem C3_amended (q : Quiz) (st : TakeState) (question : Question) (g : Guess) :
    ((form_valid_user q st question g).1.progress.totalFor question.category
        = st.progress.totalFor question.category + 1) ∧
    ((form_valid_user q st question g).1.progress.correctFor question.category
        = st.progress.correctFor question.category
          + (if check_if_correct question g = Outcome.correct then 1 else 0)) ∧
    (∀ c, c ≠ question.category →
      (form_valid_user q st question g).1.progress.totalFor c = st.progress.totalFor c ∧
      (form_valid_user q st question g).1.progress.correctFor c = st.progress.correctFor c) := by
  refine ⟨?_, ?_, ?_⟩
  · by_cases h : check_if_correct question g = Outcome.correct <;>
      simp [form_valid_user, h, ProgressRec.update_score, updateScores_totalFor]
  · by_cases h : check_if_correct question g = Outcome.correct <;>
      simp [form_valid_user, h, ProgressRec.update_score, updateScores_correctFor]
  · intro c hc
    by_cases h : check_if_correct question g = Outcome.correct <;>
      simp [form_valid_user, h, ProgressRec.update_score,
        updateScores_totalFor_ne _ _ _ _ _ hc, updateScores_correctFor_ne _ _ _ _ _ hc]

/-- Witness for the amended C3 at a concrete correct submission. -/
theorem C3_amended_witness :
    ((form_valid_user
        ⟨false, false, false, false, false, 1, 50, none, none, none, false, none⟩
        ⟨⟨[7], [], [], 0, 0, false⟩, ⟨[(3, 2, 4)]⟩⟩
        ⟨7, 3, .mc 1⟩ (.choice 1)).1.progress.totalFor 3 = 5) ∧
    ((form_valid_user
        ⟨false, false, false, false, false, 1, 50, none, none, none, false, none⟩
        ⟨⟨[7], [], [], 0, 0, false⟩, ⟨[(3, 2, 4)]⟩⟩
        ⟨7, 3, .mc 1⟩ (.choice 1)).1.progress.correctFor 9 = 0) := by
  constructor
  · have h := (C3_amended
      ⟨false, false, false, false, false, 1, 50, none, none, none, false, none⟩
      ⟨⟨[7], [], [], 0, 0, false⟩, ⟨[(3, 2, 4)]⟩⟩
      ⟨7, 3, .mc 1⟩ (.choice 1)).1
    simpa using h
  · have h := ((C3_amended
      ⟨false, false, false, false, false, 1, 50, none, none, none, false, none⟩
      ⟨⟨[7], [], [], 0, 0, false⟩, ⟨[(3, 2, 4)]⟩⟩
      ⟨7, 3, .mc 1⟩ (.choice 1)).2.2 9 (by decide)).2
    simpa using h

/-- Claim C6, counterexample: the Essay validator does return Ungraded,
but essays are not excluded from the correct-count denominator: a single
essay submission increments the Progress total counter of its category
from 0 to 1, and the essay is put in the incorrect-question set. -/
theorem C6_counterexample :
    check_if_correct ⟨5, 2, .essay⟩ (.text "my essay") = Outcome.ungraded ∧
    ((form_valid_user
        ⟨false, false, false, false, false, 1, 50, none, none, none, false, none⟩
        ⟨⟨[5], [], [], 0, 0, false⟩, ⟨[]⟩⟩
        ⟨5, 2, .essay⟩ (.text "my essay")).1.progress.totalFor 2 = 1) ∧
    (5 ∈ (form_valid_user
        ⟨false, false, false, false, false, 1, 50, none, none, none, false, none⟩
        ⟨⟨[5], [], [], 0, 0, false⟩, ⟨[]⟩⟩
        ⟨5, 2, .essay⟩ (.text "my essay")).1.sitting.incorrect) := by
  refine ⟨rfl, by decide, by decide⟩

/-- Claim C6 amended: the Essay validator always returns Ungraded and an
essay never increments the running score (the engine never marks an
essay correct), but essays are counted, not excluded: each essay
submission increments the Progress total counter of its category by 1
(correct counter unchanged) and adds the essay to the incorrect-question
set, which also leaves it in the denominator of the final percentage. -/
theorem C6_amended (q : Quiz) (st : TakeState) (qid cat : Nat) (g : Guess) :
    check_if_correct ⟨qid, cat, .essay⟩ g = Outcome.ungraded ∧
    (form_valid_user q st ⟨qid, cat, .essay⟩ g).1.sitting.currentScore
      = st.sitting.currentScore ∧
    qid ∈ (form_valid_user q st ⟨qid, cat, .essay⟩ g).1.sitting.incorrect ∧
    (form_valid_user q st ⟨qid, cat, .essay⟩ g).1.progress.totalFor cat
      = st.progress.totalFor cat + 1 ∧
    (form_valid_user q st ⟨qid, cat, .essay⟩ g).1.progress.correctFor cat
      = st.progress.correctFor cat := by
  have hval : check_if_correct ⟨qid, cat, .essay⟩ g = Outcome.ungraded := by
    cases g <;> rfl
  have hnc : ¬(check_if_correct ⟨qid, cat, .essay⟩ g = Outcome.correct) := by
    rw [hval]
    intro h
    cases h
  refine ⟨hval, ?_, ?_, ?_, ?_⟩
  · simp [form_valid_user, hnc, Sitting.add_incorrect_question,
      Sitting.add_user_answer, Sitting.remove_first_question]
  · by_cases hmem : qid ∈ st.sitting.incorrect <;>
      simp [form_valid_user, hnc, Sitting.add_incorrect_question,
        Sitting.add_user_answer, Sitting.remove_first_question, hmem]
  · simp [form_valid_user, hnc, ProgressRec.update_score]
    have h := updateScores_totalFor st.progress.scores cat 0 1
    simpa using h
  · simp [form_valid_user, hnc, ProgressRec.update_score]
    have h := updateScores_correctFor st.progress.scores cat 0 1
    simpa using h

/-- Claim C7: when the reveal mode is AtEnd (`answers_at_end`), the
mid-attempt response to the learner (previous-answer feedback payload,
next question, progress display) is identical for any two submissions to
the same state that differ only in the guess, hence in correctness: no
correctness information leaks before finalize. -/
theorem C7_at_end_no_leak (q : Quiz) (st : TakeState) (question : Question)
    (g1 g2 : Guess) (h : q.answersAtEnd = true) :
    midAttemptView (form_valid_user q st question g1).1 (form_valid_user q st question g1).2
      = midAttemptView (form_valid_user q st question g2).1
          (form_valid_user q st question g2).2 := by
  by_cases h1 : check_if_correct question g1 = Outcome.correct <;>
    by_cases h2 : check_if_correct question g2 = Outcome.correct <;>
      simp [form_valid_user, midAttemptView, h, h1, h2, Sitting.add_to_score,
        Sitting.add_incorrect_question, Sitting.add_user_answer,
        Sitting.remove_first_question, Sitting.get_first_question, Sitting.progressPair]

/-- Witness for C7: a correct and an incorrect submission on a concrete
AtEnd quiz produce the same mid-attempt view. -/
theorem C7_at_end_no_leak_witness :
    midAttemptView
      (form_valid_user
        ⟨false, false, true, false, false, 1, 50, none, none, none, false, none⟩
        ⟨⟨[7, 8], [], [], 0, 0, false⟩, ⟨[]⟩⟩ ⟨7, 3, .mc 1⟩ (.choice 1)).1
      (form_valid_user
        ⟨false, false, true, false, false, 1, 50, none, none, none, false, none⟩
        ⟨⟨[7, 8], [], [], 0, 0, false⟩, ⟨[]⟩⟩ ⟨7, 3, .mc 1⟩ (.choice 1)).2
    = midAttemptView
      (form_valid_user
        ⟨false, false, true, false, false, 1, 50, none, none, none, false, none⟩
        ⟨⟨[7, 8], [], [], 0, 0, false⟩, ⟨[]⟩⟩ ⟨7, 3, .mc 1⟩ (.choice 2)).1
      (form_valid_user
        ⟨false, false, true, false, false, 1, 50, none, none, none, false, none⟩
        ⟨⟨[7, 8], [], [], 0, 0, false⟩, ⟨[]⟩⟩ ⟨7, 3, .mc 1⟩ (.choice 2)).2 :=
  C7_at_end_no_leak _ _ _ _ _ rfl

/-- Claim C4: when the dispatch path reaches an unfinished Sitting whose
time limit has elapsed, the submission or access is not accepted as an
answer: dispatch reports the expiry and forces the Sitting to Complete
with exactly the answers, score and incorrect set recorded before
expiry. -/
theorem C4_time_expiry_forces_complete (q : Quiz) (u : UserCtx) (qids : List Nat)
    (cc : Nat) (ex : Option Sitting) (now : Int) (s : Sitting)
    (h1 : (u.isStudent && q.draft) = false)
    (h2 : (!(q.is_available now) && u.isStudent) = false)
    (h3 : qids.isEmpty = false)
    (h4 : user_sitting q cc ex now qids = some s)
    (h5 : s.is_time_expired q now = true) :
    dispatch q u qids cc ex now = DispatchResult.timeExpired s.mark_quiz_complete ∧
    s.mark_quiz_complete.complete = true ∧
    s.mark_quiz_complete.answeredMap = s.answeredMap ∧
    s.mark_quiz_complete.currentScore = s.currentScore ∧
    s.mark_quiz_complete.incorrect = s.incorrect := by
  refine ⟨?_, rfl, rfl, rfl, rfl⟩
  unfold dispatch
  simp [h1, h2, h3, h4, h5]

/-- Witness for C4: a student whose ten-minute Sitting started at time 0
is visited at time 700; the attempt is forced complete with the recorded
(empty) answers. -/
theorem C4_time_expiry_forces_complete_witness :
    dispatch ⟨false, false, false, false, false, 1, 50, some 10, none, none, false, none⟩
        ⟨true, false, false⟩ [7] 0 (some ⟨[7], [], [], 0, 0, false⟩) 700
      = DispatchResult.timeExpired (Sitting.mark_quiz_complete ⟨[7], [], [], 0, 0, false⟩) ∧
    (Sitting.mark_quiz_complete ⟨[7], [], [], 0, 0, false⟩).complete = true ∧
    (Sitting.mark_quiz_complete ⟨[7], [], [], 0, 0, false⟩).answeredMap = [] := by
  have h := C4_time_expiry_forces_complete
    ⟨false, false, false, false, false, 1, 50, some 10, none, none, false, none⟩
    ⟨true, false, false⟩ [7] 0 (some ⟨[7], [], [], 0, 0, false⟩) 700 ⟨[7], [], [], 0, 0, false⟩
    (by decide) (by decide) (by decide) (by decide) (by decide)
  exact ⟨h.1, h.2.1, h.2.2.1⟩

/-- Claim C8: for a learner (student) admission request the precondition
checks run in fixed order: a non-Active gate yields a not-available
redirect whatever the question set and attempt history; with an Active
gate an empty question set yields Empty whatever the attempt history;
with an Active gate and a non-empty question set an exhausted attempt
ceiling yields AttemptsExhausted. -/
theorem C8_admission_check_order (q : Quiz) (u : UserCtx) (qids : List Nat)
    (cc : Nat) (ex : Option Sitting) (now : Int) (hu : u.isStudent = true) :
    (get_quiz_status q now ≠ QuizStatus.active →
      (dispatch q u qids cc ex now).isNotAvailable = true) ∧
    (get_quiz_status q now = QuizStatus.active → qids = [] →
      dispatch q u qids cc ex now = DispatchResult.redirectEmpty) ∧
    (get_quiz_status q now = QuizStatus.active → qids ≠ [] → q.maxAttempts ≤ cc →
      dispatch q u qids cc ex now = DispatchResult.redirectAttempts) := by
  refine ⟨?_, ?_, ?_⟩
  · intro hna
    unfold dispatch
    by_cases hd : q.draft = true
    · simp [hu, hd, DispatchResult.isNotAvailable]
    · have hav : q.is_available now = false := by
        unfold Quiz.is_available
        simpa using hna
      simp only [hu, Bool.and_true, Bool.true_and]
      rw [if_neg (by simp [hd])]
      rw [if_pos (by simp [hav])]
      by_cases he : q.is_expired now = true
      · simp [he, DispatchResult.isNotAvailable]
      · by_cases hf : (match q.availableFrom with
            | some t => decide (now < t) | none => false) = true
        · simp [he, hf, DispatchResult.isNotAvailable]
        · simp [he, hf, DispatchResult.isNotAvailable]
  · intro hact hempty
    have hd : q.draft = false := by
      by_contra hdt
      have hdt2 : q.draft = true := by
        cases hq : q.draft
        · exact absurd hq hdt
        · rfl
      rw [get_quiz_status, if_pos hdt2] at hact
      cases hact
    have hav : q.is_available now = true := by
      unfold Quiz.is_available
      simp [hact]
    subst hempty
    unfold dispatch
    simp [hu, hd, hav]
  · intro hact hne hcc
    have hd : q.draft = false := by
      by_contra hdt
      have hdt2 : q.draft = true := by
        cases hq : q.draft
        · exact absurd hq hdt
        · rfl
      rw [get_quiz_status, if_pos hdt2] at hact
      cases hact
    have hav : q.is_available now = true := by
      unfold Quiz.is_available
      simp [hact]
    have hemp : qids.isEmpty = false := by
      cases qids with
      | nil => exact absurd rfl hne
      | cons a as => rfl
    have hus : user_sitting q cc ex now qids = none := by
      unfold user_sitting
      simp [hcc]
    unfold dispatch
    simp [hu, hd, hav, hemp, hus]

/-- Witness for C8: on a concrete closed quiz a student gets a
not-available redirect even with questions and attempts left; on an
active quiz with no questions, Empty; on an active quiz with a question
and the ceiling reached, AttemptsExhausted. -/
theorem C8_admission_check_order_witness :
    ((dispatch ⟨false, false, false, false, false, 3, 50, none, none, some 5, false, none⟩
        ⟨true, false, false⟩ [7] 0 none 9).isNotAvailable = true) ∧
    (dispatch ⟨false, false, false, false, false, 3, 50, none, none, none, false, none⟩
        ⟨true, false, false⟩ [] 0 none 9 = DispatchResult.redirectEmpty) ∧
    (dispatch ⟨false, false, false, false, false, 3, 50, none, none, none, false, none⟩
        ⟨true, false, false⟩ [7] 3 none 9 = DispatchResult.redirectAttempts) := by
  refine ⟨?_, ?_, ?_⟩
  · exact (C8_admission_check_order
      ⟨false, false, false, false, false, 3, 50, none, none, some 5, false, none⟩
      ⟨true, false, false⟩ [7] 0 none 9 rfl).1 (by decide)
  · exact (C8_admission_check_order
      ⟨false, false, false, false, false, 3, 50, none, none, none, false, none⟩
      ⟨true, false, false⟩ [] 0 none 9 rfl).2.1 (by decide) rfl
  · exact (C8_admission_check_order
      ⟨false, false, false, false, false, 3, 50, none, none, none, false, none⟩
      ⟨true, false, false⟩ [7] 3 none 9 rfl).2.2 (by decide) (by decide) (by decide)

/-- The reachability invariant behind the attempt ceiling: the completed
count never exceeds the ceiling, and an unfinished Sitting exists only
while the count is strictly below it. -/
theorem learner_history_invariant (q : Quiz) {a b : LearnerHistory}
    (hr : QuizReach q a b)
    (ha : a.completed ≤ q.maxAttempts ∧
      (a.current.isSome = true → a.completed < q.maxAttempts)) :
    b.completed ≤ q.maxAttempts ∧
      (b.current.isSome = true → b.completed < q.maxAttempts) := by
  induction hr with
  | refl => exact ha
  | tail hab hbc ih =>
    obtain ⟨h1, h2⟩ := ih
    cases hbc with
    | startAttempt now queue s hsit =>
      refine ⟨h1, ?_⟩
      intro _
      unfold user_sitting at hsit
      split at hsit
      · cases hsit
      · rename_i hc
        dsimp only
        omega
    | finalizeAttempt s hcur =>
      have hlt := h2 (by rw [hcur]; rfl)
      refine ⟨?_, ?_⟩
      · dsimp only
        omega
      · intro hsome
        simp at hsome

/-- Claim C5: starting from a fresh history, a learner can never
accumulate more than the attempt ceiling of completed Sittings; and an
admission request made once the completed count has reached the ceiling
is rejected (`user_sitting` returns none) rather than creating a new
Sitting. -/
theorem C5_attempt_ceiling (q : Quiz) :
    (∀ h : LearnerHistory, QuizReach q ⟨0, none⟩ h → h.completed ≤ q.maxAttempts) ∧
    (∀ (cc : Nat) (ex : Option Sitting) (now : Int) (queue : List Nat),
      q.maxAttempts ≤ cc → user_sitting q cc ex now queue = none) := by
  constructor
  · intro h hr
    refine (learner_history_invariant q hr ⟨Nat.zero_le _, ?_⟩).1
    intro hs
    simp at hs
  · intro cc ex now queue hle
    unfold user_sitting
    simp [hle]

/-- Witness for C5: with ceiling 1, the history reached by one admission
followed by one finalization has one completed Sitting, within the
ceiling; and a further admission at count 1 is rejected. -/
theorem C5_attempt_ceiling_witness :
    (1 : Nat) ≤ (Quiz.mk false false false false false 1 50 none none none false none).maxAttempts ∧
    user_sitting ⟨false, false, false, false, false, 1, 50, none, none, none, false, none⟩
      1 none 0 [7] = none := by
  constructor
  · exact (C5_attempt_ceiling
      ⟨false, false, false, false, false, 1, 50, none, none, none, false, none⟩).1
      ⟨1, none⟩
      (QuizReach.tail
        (QuizReach.tail (QuizReach.refl ⟨0, none⟩)
          (QuizStep.startAttempt ⟨0, none⟩ 0 [7] (newSitting [7] 0) rfl))
        (QuizStep.finalizeAttempt ⟨0, some (newSitting [7] 0)⟩ (newSitting [7] 0) rfl))
  · exact (C5_attempt_ceiling
      ⟨false, false, false, false, false, 1, 50, none, none, none, false, none⟩).2
      1 none 0 [7] (by decide)

/-- An Except value that is not ok carries some error. -/
theorem except_not_ok {r : Except String Unit} (h : r ≠ Except.ok ()) :
    ∃ e, r = Except.error e := by
  cases r with
  | error e => exact ⟨e, rfl⟩
  | ok u =>
    cases u
    exact absurd rfl h

/-- The formset validation succeeds exactly when every non-deleted row
has a choice text, at least two non-deleted rows remain, and exactly one
of them is marked correct. -/
theorem formset_clean_ok_iff (forms : List ChoiceForm) :
    formset_clean forms = Except.ok () ↔
      ((validForms forms).all (fun f => f.hasChoiceText) = true ∧
       2 ≤ (validForms forms).length ∧
       ((validForms forms).map (fun f => f.correct.getD false)).count true = 1) := by
  have hany : (((validForms forms).map (fun f => f.correct.getD false)).any (fun b => b) = true)
      ↔ 0 < ((validForms forms).map (fun f => f.correct.getD false)).count true := by
    rw [List.any_eq_true]
    constructor
    · rintro ⟨x, hx, hxt⟩
      have : x = true := by simpa using hxt
      subst this
      exact List.count_pos_iff.mpr hx
    · intro hpos
      exact ⟨true, List.count_pos_iff.mp hpos, rfl⟩
  unfold formset_clean
  by_cases h1 : (validForms forms).all (fun f => f.hasChoiceText) = true
  · by_cases h2 : (validForms forms).length < 2
    · simp [h1, h2]
      try omega
    · by_cases h3 : (((validForms forms).map (fun f => f.correct.getD false)).any
          (fun b => b)) = true
      · by_cases h4 : 1 < ((validForms forms).map (fun f => f.correct.getD false)).count true
        · simp [h1, h2, h3, h4]
          omega
        · have hpos := hany.mp h3
          simp [h1, h2, h3, h4]
          omega
      · have hzero : ((validForms forms).map (fun f => f.correct.getD false)).count true = 0 := by
          by_contra hz
          exact h3 (hany.mpr (by omega))
        simp [h1, h2, h3]
        omega
  · simp [h1]

/-- Claim C10: a MultipleChoice authoring submission accepted by the
formset validation has at least two non-deleted choices and exactly one
choice marked correct; a submission with fewer than two non-deleted
choices, none marked correct, or more than one marked correct is
rejected with a validation error. -/
theorem C10_mc_authoring (forms : List ChoiceForm) :
    (formset_clean forms = Except.ok () →
      2 ≤ (validForms forms).length ∧
      ((validForms forms).map (fun f => f.correct.getD false)).count true = 1) ∧
    ((validForms forms).length < 2 → ∃ e, formset_clean forms = Except.error e) ∧
    (((validForms forms).map (fun f => f.correct.getD false)).count true = 0 →
      ∃ e, formset_clean forms = Except.error e) ∧
    (1 < ((validForms forms).map (fun f => f.correct.getD false)).count true →
      ∃ e, formset_clean forms = Except.error e) := by
  refine ⟨?_, ?_, ?_, ?_⟩
  · intro hok
    exact ⟨((formset_clean_ok_iff forms).mp hok).2.1, ((formset_clean_ok_iff forms).mp hok).2.2⟩
  · intro hlen
    refine except_not_ok ?_
    intro hok
    have := ((formset_clean_ok_iff forms).mp hok).2.1
    omega
  · intro hzero
    refine except_not_ok ?_
    intro hok
    have := ((formset_clean_ok_iff forms).mp hok).2.2
    omega
  · intro hmany
    refine except_not_ok ?_
    intro hok
    have := ((formset_clean_ok_iff forms).mp hok).2.2
    omega

/-- Witness for C10: a two-choice formset with one correct choice passes
and indeed has two valid rows and one correct mark; a one-choice formset
is rejected with an error. -/
theorem C10_mc_authoring_witness :
    (2 ≤ (validForms [⟨some false, true, some true⟩, ⟨some false, true, some false⟩]).length ∧
     ((validForms [⟨some false, true, some true⟩, ⟨some false, true, some false⟩]).map
        (fun f => f.correct.getD false)).count true = 1) ∧
    (∃ e, formset_clean [⟨some false, true, some true⟩] = Except.error e) := by
  constructor
  · exact (C10_mc_authoring
      [⟨some false, true, some true⟩, ⟨some false, true, some false⟩]).1 rfl
  · exact (C10_mc_authoring [⟨some false, true, some true⟩]).2.1 (by decide)

end SchMgmt
